import Mathlib

/-!
# Verification of the album data-access layer

A shallow embedding of the `internal/data` album store (`albums.go`) of the
`spafinal` service, together with the pieces of the repository that the album
code depends on (the `internal/validator` package and the `Filters`/`Metadata`
helpers), which are modelled from the specification because their source files
are not part of the checked tree.

The relational store is represented as a list of rows; each persistence
operation is translated from the Go function together with the SQL statement it
issues.  Storage failures other than "no rows" are modelled by an optional
injected fault code, so that the error-mapping branches of the Go code are all
reachable in the model.
-/

/-- One album row / domain record (`albums.go`, `type Album`).  The Go fields
of type `int64`, `int32` and `Runtime` are embedded as `Int`; `CreatedAt` is an
abstract timestamp. -/
structure Album where
  ID : Int
  CreatedAt : Nat
  Title : String
  Year : Int
  Runtime : Int
  Genres : List String
  Version : Int
deriving DecidableEq

/-- Modelled from the spec: the `internal/validator` package is not in the
checked tree.  §4.1: a stateless rule-checker producing field-keyed error
messages. -/
structure Validator where
  Errors : List (String × String)
deriving DecidableEq

/-- Modelled from the spec (§4.1): record `message` under `key`; the first
message per key wins, later messages on an already-failed key are ignored. -/
def Validator.AddError (v : Validator) (key message : String) : Validator :=
  if (v.Errors.map Prod.fst).contains key then v
  else { Errors := v.Errors ++ [(key, message)] }

/-- Modelled from the spec (§4.1): `Check(condition, fieldKey, message)` — if
the condition is false, record the message under the field key. -/
def Validator.Check (v : Validator) (ok : Bool) (key message : String) : Validator :=
  if ok then v else v.AddError key message

/-- Modelled from the spec (§4.1): `Unique(values)` returns false if any two
elements of the sequence are equal. -/
def validator.Unique (values : List String) : Bool :=
  match values with
  | [] => true
  | x :: xs => !xs.contains x && validator.Unique xs

/-- Translation of `ValidateAlbum` (`albums.go`).  The value of
`time.Now().Year()` is passed in as the `currentYear` parameter.  In Go, `len`
on a string counts bytes, hence `utf8ByteSize`; a nil genres slice is
identified with the empty list. -/
def ValidateAlbum (currentYear : Int) (v : Validator) (album : Album) : Validator :=
  let v := v.Check (album.Title != "") "title" "must be provided"
  let v := v.Check (decide (album.Title.utf8ByteSize ≤ 500)) "title"
    "must not be more than 500 bytes long"
  let v := v.Check (album.Year != 0) "year" "must be provided"
  let v := v.Check (decide (1888 ≤ album.Year)) "year" "must be greater than 1888"
  let v := v.Check (decide (album.Year ≤ currentYear)) "year" "must not be in the future"
  let v := v.Check (album.Runtime != 0) "runtime" "must be provided"
  let v := v.Check (decide (0 < album.Runtime)) "runtime" "must be a positive integer"
  let v := v.Check (album.Genres != []) "genres" "must be provided"
  let v := v.Check (decide (1 ≤ album.Genres.length)) "genres" "must contain at least 1 genre"
  let v := v.Check (decide (album.Genres.length ≤ 5)) "genres"
    "must not contain more than 5 genres"
  let v := v.Check (validator.Unique album.Genres) "genres" "must not contain duplicate values"
  v

/-- Raw storage-layer outcome: `sql.ErrNoRows`, or any other backend failure
(connectivity loss, timeout, …), identified by an abstract code. -/
inductive SqlErr where
  | noRows
  | failure (code : Nat)
deriving DecidableEq

/-- Errors observable from the data layer: the two sentinels declared in the
`data` package (`ErrRecordNotFound`, `ErrEditConflict`) plus the unchanged
passthrough of any other storage error. -/
inductive ModelErr where
  | recordNotFound
  | editConflict
  | sqlError (e : SqlErr)
deriving DecidableEq

/-- Modelled from the spec (§6): the `ErrRecordNotFound` sentinel declared in
the `data` package (its declaring file is not in the checked tree). -/
def ErrRecordNotFound : ModelErr := .recordNotFound

/-- Modelled from the spec (§6): the `ErrEditConflict` sentinel declared in
the `data` package (its declaring file is not in the checked tree). -/
def ErrEditConflict : ModelErr := .editConflict

/-- Engine semantics of the Get query `SELECT … WHERE id = $1` and `Scan`:
the first row whose id matches, or `sql.ErrNoRows`; an injected fault makes
the round trip fail with that storage error instead. -/
def queryRowGet (db : List Album) (id : Int) (fault : Option Nat) : Except SqlErr Album :=
  match fault with
  | some c => .error (.failure c)
  | none =>
    match db.find? (fun r => decide (r.ID = id)) with
    | some r => .ok r
    | none => .error .noRows

instance {ε α : Type} [DecidableEq ε] [DecidableEq α] : DecidableEq (Except ε α) := fun x y =>
  match x, y with
  | .ok a, .ok b => if h : a = b then .isTrue (by rw [h]) else .isFalse (by simp [h])
  | .error a, .error b => if h : a = b then .isTrue (by rw [h]) else .isFalse (by simp [h])
  | .ok _, .error _ => .isFalse (by simp)
  | .error _, .ok _ => .isFalse (by simp)

/-- Result of `AlbumModel.Get`: whether a query was issued, and the scanned
album or the mapped error. -/
structure GetResult where
  queried : Bool
  res : Except ModelErr Album
deriving DecidableEq

/-- Translation of `AlbumModel.Get` (`albums.go`): fast-path `id < 1` without issuing a
query; `sql.ErrNoRows` is mapped to `ErrRecordNotFound`; any other error is
returned unchanged. -/
def AlbumModel.Get (db : List Album) (id : Int) (fault : Option Nat) : GetResult :=
  if id < 1 then ⟨false, .error ErrRecordNotFound⟩
  else
    match queryRowGet db id fault with
    | .ok a => ⟨true, .ok a⟩
    | .error .noRows => ⟨true, .error ErrRecordNotFound⟩
    | .error e => ⟨true, .error (.sqlError e)⟩

/-- The `WHERE id = $5 AND version = $6` predicate of the Update SQL. -/
def updateMatches (a : Album) (r : Album) : Bool :=
  decide (r.ID = a.ID ∧ r.Version = a.Version)

/-- Engine semantics of
`UPDATE albums SET …, version = version + 1 WHERE id = $5 AND version = $6
RETURNING version` followed by `Scan`: every matching row gets the new field
values and an incremented version; the returned version is that of the updated
row; no matching row yields `sql.ErrNoRows`. -/
def queryRowUpdate (db : List Album) (a : Album) (fault : Option Nat) :
    List Album × Except SqlErr Int :=
  match fault with
  | some c => (db, .error (.failure c))
  | none =>
    if db.any (updateMatches a) then
      (db.map (fun r =>
        if updateMatches a r then
          { r with Title := a.Title, Year := a.Year, Runtime := a.Runtime,
                   Genres := a.Genres, Version := r.Version + 1 }
        else r),
       .ok (a.Version + 1))
    else (db, .error .noRows)

/-- Result of `AlbumModel.Update`: whether a query was issued, the store after
the call, the record of the caller after the call (Go writes the returned version
back into it), and the mapped error. -/
structure UpdateResult where
  queried : Bool
  db : List Album
  album : Album
  err : Option ModelErr
deriving DecidableEq

/-- Translation of `AlbumModel.Update` (`albums.go`): compare-and-swap on `(id, version)`;
`sql.ErrNoRows` is mapped to `ErrEditConflict`; any other error is returned
unchanged; on success the returned version is scanned into the record of the
caller. -/
def AlbumModel.Update (db : List Album) (album : Album) (fault : Option Nat) : UpdateResult :=
  match queryRowUpdate db album fault with
  | (db', .ok v) => ⟨true, db', { album with Version := v }, none⟩
  | (db', .error .noRows) => ⟨true, db', album, some ErrEditConflict⟩
  | (db', .error e) => ⟨true, db', album, some (.sqlError e)⟩

/-- Engine semantics of `DELETE FROM albums WHERE id = $1` via `Exec`: removes
every matching row and reports the number of rows affected. -/
def execDelete (db : List Album) (id : Int) (fault : Option Nat) :
    List Album × Except SqlErr Nat :=
  match fault with
  | some c => (db, .error (.failure c))
  | none =>
    (db.filter (fun r => !decide (r.ID = id)), .ok (db.countP (fun r => decide (r.ID = id))))

/-- Result of `AlbumModel.Delete`: whether a query was issued, the store after
the call, and the mapped error. -/
structure DeleteResult where
  queried : Bool
  db : List Album
  err : Option ModelErr
deriving DecidableEq

/-- Translation of `AlbumModel.Delete` (`albums.go`): fast-path `id < 1` without issuing a
query; zero rows affected is mapped to `ErrRecordNotFound`; deletion carries
no version check. -/
def AlbumModel.Delete (db : List Album) (id : Int) (fault : Option Nat) : DeleteResult :=
  if id < 1 then ⟨false, db, some ErrRecordNotFound⟩
  else
    match execDelete db id fault with
    | (db', .ok n) => if n = 0 then ⟨true, db', some ErrRecordNotFound⟩ else ⟨true, db', none⟩
    | (db', .error e) => ⟨true, db', some (.sqlError e)⟩

/-- Engine semantics of
`INSERT INTO albums (title, year, runtime, genres) VALUES … RETURNING id,
created_at, version`: the store appends a row with a store-generated id
(`nextId`) and creation time (`now`) and version 1, and returns those three. -/
def queryRowInsert (db : List Album) (nextId : Int) (now : Nat) (a : Album)
    (fault : Option Nat) : List Album × Except SqlErr (Int × Nat × Int) :=
  match fault with
  | some c => (db, .error (.failure c))
  | none =>
    (db ++ [{ ID := nextId, CreatedAt := now, Title := a.Title, Year := a.Year,
              Runtime := a.Runtime, Genres := a.Genres, Version := 1 }],
     .ok (nextId, now, 1))

/-- Result of `AlbumModel.Insert`: the store after the call, the record of
the caller after the call (Go scans id, created_at and version back into it),
and the error. -/
structure InsertResult where
  db : List Album
  album : Album
  err : Option ModelErr
deriving DecidableEq

/-- Translation of `AlbumModel.Insert` (`albums.go`): sends the four caller-supplied fields,
scans the three store-generated columns back into the passed-in record. -/
def AlbumModel.Insert (db : List Album) (nextId : Int) (now : Nat) (album : Album)
    (fault : Option Nat) : InsertResult :=
  match queryRowInsert db nextId now album fault with
  | (db', .ok (i, c, v)) => ⟨db', { album with ID := i, CreatedAt := c, Version := v }, none⟩
  | (db', .error e) => ⟨db', album, some (.sqlError e)⟩

/-- Modelled from the spec (§3): sort/page parameters consumed by `GetAll`.
`SortSafelist` is the allow-list of permitted sort keys.  The Go field `Sort`
is embedded as `SortKey` because `Sort` is a Lean keyword. -/
structure Filters where
  Page : Int
  PageSize : Int
  SortKey : String
  SortSafelist : List String
deriving DecidableEq

/-- The Go test `strings.HasPrefix(s, "-")`, specialised to the one-character
descending-order marker, computed on the character list. -/
def startsWithDash (s : String) : Bool :=
  match s.data with
  | [] => false
  | c :: _ => c = '-'

/-- Drop the leading `-` (descending-order marker) from a sort key, as the
Go call `strings.TrimPrefix(s, "-")` does. -/
def stripLeadingDash (s : String) : String :=
  if startsWithDash s then String.mk (s.data.drop 1) else s

/-- Modelled from the spec (§3, §9): look the sort key up in the allow-list and
map it to its column name; an unrecognized value is rejected (`none`) before
any query is constructed. -/
def Filters.sortColumn (f : Filters) : Option String :=
  if f.SortSafelist.contains f.SortKey then some (stripLeadingDash f.SortKey) else none

/-- Modelled from the spec (§3): a `-` prefix on the sort key means descending
order. -/
def Filters.sortDirection (f : Filters) : String :=
  if startsWithDash f.SortKey then "DESC" else "ASC"

/-- Modelled from the spec (§4.3(d)): the LIMIT derived from `PageSize`. -/
def Filters.limit (f : Filters) : Int := f.PageSize

/-- Modelled from the spec (§4.3(d)): the OFFSET derived from `Page` and
`PageSize`. -/
def Filters.offset (f : Filters) : Int := (f.Page - 1) * f.PageSize

/-- Modelled from the spec (§3): derived, read-only pagination summary. -/
structure Metadata where
  CurrentPage : Int
  PageSize : Int
  FirstPage : Int
  LastPage : Int
  TotalRecords : Int
deriving DecidableEq

/-- The zero value of `Metadata`, which Go writes as a pair of empty braces
after the type name. -/
def Metadata.zero : Metadata := ⟨0, 0, 0, 0, 0⟩

/-- Modelled from the spec (§3, §8): metadata computed from the total matching
row count; `LastPage = ceil(total/pageSize)`; a zero total yields the
zero-valued `Metadata`. -/
def calculateMetadata (totalRecords page pageSize : Int) : Metadata :=
  if totalRecords = 0 then Metadata.zero
  else ⟨page, pageSize, 1, (totalRecords + pageSize - 1) / pageSize, totalRecords⟩

/-- The four album columns that can appear as a validated sort column. -/
inductive SortCol where
  | id
  | title
  | year
  | runtime
deriving DecidableEq

/-- Column-name resolution performed by the engine on the interpolated sort
column; any other name would be rejected by the backend. -/
def parseSortCol (s : String) : Option SortCol :=
  if s = "id" then some .id
  else if s = "title" then some .title
  else if s = "year" then some .year
  else if s = "runtime" then some .runtime
  else none

/-- Direction-keyword resolution performed by the engine (`true` = DESC). -/
def parseSortDir (s : String) : Option Bool :=
  if s = "ASC" then some false else if s = "DESC" then some true else none

/-- The clause `ORDER BY key dir, id ASC` as a Boolean total preorder: rows with equal
sort keys are ordered by id ascending; otherwise by the key, reversed when
`desc`. -/
def keyLE {β : Type} [LinearOrder β] (key : Album → β) (desc : Bool) (a b : Album) : Bool :=
  if key a = key b then decide (a.ID ≤ b.ID)
  else if desc then decide (key b < key a) else decide (key a < key b)

/-- The row ordering selected by a sort column and direction. -/
def rowLE (col : SortCol) (desc : Bool) : Album → Album → Bool :=
  match col with
  | .id => keyLE (fun r => r.ID) desc
  | .title => keyLE (fun r => r.Title) desc
  | .year => keyLE (fun r => r.Year) desc
  | .runtime => keyLE (fun r => r.Runtime) desc

/-- Relation form of `rowLE`, decidable, for use with `List.insertionSort`. -/
def rowRel (col : SortCol) (desc : Bool) (a b : Album) : Prop :=
  rowLE col desc a b = true

instance (col : SortCol) (desc : Bool) : DecidableRel (rowRel col desc) :=
  fun _ _ => inferInstanceAs (Decidable (_ = true))

/-- The WHERE clause of the GetAll query, one row at a time: the text-search
disjunct with its empty-title-filter bypass, conjoined with the
genre-containment disjunct (SQL operator `@>`) with its empty-array bypass.
The text-search predicate `ts` is backend-specific and kept abstract, as the
spec directs (§9, open question); it receives the title filter and the title
of the row. -/
def matchesRow (ts : String → String → Bool) (title : String) (genres : List String)
    (r : Album) : Bool :=
  (ts title r.Title || title == "") &&
    (genres.all (fun g => r.Genres.contains g) || genres == [])

/-- Engine semantics of the windowed GetAll query: filter by the WHERE clause,
order by the resolved column/direction with id ascending as tie-break, window
by LIMIT/OFFSET, and attach `count(*) OVER()` — the size of the unlimited
filtered set — to every returned row. -/
def selectAlbumsWindow (ts : String → String → Bool) (db : List Album) (title : String)
    (genres : List String) (col : SortCol) (desc : Bool) (lim off : Int) :
    List (Nat × Album) :=
  let matched := db.filter (matchesRow ts title genres)
  let sorted := List.insertionSort (rowRel col desc) matched
  ((sorted.drop off.toNat).take lim.toNat).map (fun r => (matched.length, r))

/-- The `rows.Next()` loop of `GetAll`: `totalRecords` starts at 0 and is
overwritten by the window count of each scanned row; albums are appended in row
order. -/
def scanLoop (rows : List (Nat × Album)) : Nat × List Album :=
  rows.foldl (fun acc tr => (tr.1, acc.2 ++ [tr.2])) (0, [])

/-- Result of `AlbumModel.GetAll`: the page of albums, the pagination
metadata, and the error, if any. -/
structure GetAllResult where
  albums : List Album
  metadata : Metadata
  err : Option ModelErr
deriving DecidableEq

/-- Translation of `AlbumModel.GetAll` (`albums.go`).  The sort fragment is produced by the
allow-list lookup before the query text is built: an unrecognized sort key is
rejected there (`none` — the Go helper refuses to return a column for it), so
no query is constructed at all.  On a storage failure the Go function returns
`nil, Metadata{}, err` with the error unchanged. -/
def AlbumModel.GetAll (ts : String → String → Bool) (db : List Album) (title : String)
    (genres : List String) (f : Filters) (fault : Option Nat) : Option GetAllResult :=
  match f.sortColumn with
  | none => none
  | some colStr =>
    match fault with
    | some c => some ⟨[], Metadata.zero, some (.sqlError (.failure c))⟩
    | none =>
      match parseSortCol colStr, parseSortDir f.sortDirection with
      | some col, some desc =>
        let rows := selectAlbumsWindow ts db title genres col desc f.limit f.offset
        let scanned := scanLoop rows
        some ⟨scanned.2, calculateMetadata (Int.ofNat scanned.1) f.Page f.PageSize, none⟩
      | _, _ => some ⟨[], Metadata.zero, some (.sqlError (.failure 0))⟩

theorem keyLE_trans {β : Type} [LinearOrder β] (key : Album → β) (desc : Bool)
    {a b c : Album} (hab : keyLE key desc a b = true) (hbc : keyLE key desc b c = true) :
    keyLE key desc a c = true := by
  unfold keyLE at *
  by_cases h1 : key a = key b <;> by_cases h2 : key b = key c <;> cases desc <;> simp_all
  all_goals first
    | omega
    | exact lt_trans hbc hab
    | exact lt_trans hab hbc
    | { have hac := lt_trans hab hbc
        rw [if_neg (ne_of_lt hac)]
        exact hac }
    | { have hac := lt_trans hbc hab
        rw [if_neg (ne_of_gt hac)]
        exact hac }

theorem keyLE_total {β : Type} [LinearOrder β] (key : Album → β) (desc : Bool)
    (a b : Album) : keyLE key desc a b = true ∨ keyLE key desc b a = true := by
  unfold keyLE
  by_cases h1 : key a = key b <;> cases desc <;> simp_all
  all_goals try omega
  all_goals rcases lt_or_gt_of_ne h1 with h | h
  · left; exact h
  · right; rw [if_neg (fun e => h1 e.symm)]; exact h
  · right; rw [if_neg (fun e => h1 e.symm)]; exact h
  · left; exact h

theorem rowLE_trans (col : SortCol) (desc : Bool) {a b c : Album}
    (hab : rowLE col desc a b = true) (hbc : rowLE col desc b c = true) :
    rowLE col desc a c = true := by
  cases col <;> exact keyLE_trans _ _ hab hbc

theorem rowLE_total (col : SortCol) (desc : Bool) (a b : Album) :
    rowLE col desc a b = true ∨ rowLE col desc b a = true := by
  cases col <;> exact keyLE_total _ _ a b

instance (col : SortCol) (desc : Bool) : IsTrans Album (rowRel col desc) :=
  ⟨fun _ _ _ => rowLE_trans col desc⟩

instance (col : SortCol) (desc : Bool) : IsTotal Album (rowRel col desc) :=
  ⟨fun a b => rowLE_total col desc a b⟩

theorem scanLoop_foldl (rows : List (Nat × Album)) (t : Nat) (acc : List Album) :
    rows.foldl (fun a tr => (tr.1, a.2 ++ [tr.2])) (t, acc) =
      ((rows.map Prod.fst).getLastD t, acc ++ rows.map Prod.snd) := by
  induction rows generalizing t acc with
  | nil => simp
  | cons x xs ih =>
      rw [List.foldl_cons, ih]
      simp only [List.map_cons, List.getLastD_cons]
      simp

theorem getLastD_constMap (l : List Album) (n t : Nat) :
    (l.map (fun _ => n)).getLastD t = if l = [] then t else n := by
  induction l generalizing t with
  | nil => rfl
  | cons x xs ih =>
      rw [List.map_cons, List.getLastD_cons, ih]
      cases xs <;> simp

/-- What the Go scan loop produces from a window whose rows all carry the same
total `n`: the count is 0 when the window is empty and `n` otherwise, and the
albums come out in row order. -/
theorem scanLoop_window (n : Nat) (l : List Album) :
    scanLoop (l.map (fun r => (n, r))) = ((if l = [] then 0 else n), l) := by
  unfold scanLoop
  rw [scanLoop_foldl]
  refine Prod.ext ?_ ?_
  · show (List.map Prod.fst (List.map (fun r => (n, r)) l)).getLastD 0 = if l = [] then 0 else n
    rw [List.map_map]
    exact getLastD_constMap l n 0
  · show [] ++ List.map Prod.snd (List.map (fun r => (n, r)) l) = l
    rw [List.map_map]
    simp

theorem addError_ne_nil (v : Validator) (key msg : String) :
    (v.AddError key msg).Errors ≠ [] := by
  unfold Validator.AddError
  split
  · rename_i hc
    intro h
    rw [h] at hc
    simp [List.contains] at hc
  · simp

theorem check_errors_nil (v : Validator) (ok : Bool) (key msg : String) :
    (v.Check ok key msg).Errors = [] ↔ (v.Errors = [] ∧ ok = true) := by
  cases ok
  · simp [Validator.Check, addError_ne_nil v key msg]
  · simp [Validator.Check]

theorem check_keys_mem (v : Validator) (ok : Bool) (key msg k : String) :
    k ∈ (v.Check ok key msg).Errors.map Prod.fst ↔
      k ∈ v.Errors.map Prod.fst ∨ (ok = false ∧ k = key) := by
  cases ok
  · simp only [Validator.Check, Validator.AddError, Bool.false_eq_true, if_false]
    split
    · rename_i hc
      simp only [List.contains, List.elem_iff] at hc
      constructor
      · exact fun h => Or.inl h
      · rintro (h | ⟨-, rfl⟩)
        · exact h
        · exact hc
    · simp
  · simp [Validator.Check]

theorem unique_iff_nodup (l : List String) : validator.Unique l = true ↔ l.Nodup := by
  induction l with
  | nil => simp [validator.Unique]
  | cons x xs ih =>
      simp [validator.Unique, ih, List.contains, List.nodup_cons]

theorem unique_eq_false_iff (l : List String) :
    validator.Unique l = false ↔ ¬ l.Nodup := by
  rw [← unique_iff_nodup]
  cases validator.Unique l <;> simp

/-- C3: starting from a fresh validator, `ValidateAlbum` reports zero errors
iff the title is non-empty and at most 500 bytes, the year lies between 1888
and the current year, the runtime is positive, and there are 1–5 genres with
no duplicates; moreover every rule group is evaluated unconditionally: each
field key is flagged exactly when the conjunction of rules for that field fails,
regardless of the other fields. -/
theorem validateAlbum_rules (currentYear : Int) (a : Album) :
    ((ValidateAlbum currentYear ⟨[]⟩ a).Errors = [] ↔
      (a.Title ≠ "" ∧ a.Title.utf8ByteSize ≤ 500 ∧ 1888 ≤ a.Year ∧ a.Year ≤ currentYear ∧
       0 < a.Runtime ∧ 1 ≤ a.Genres.length ∧ a.Genres.length ≤ 5 ∧ a.Genres.Nodup)) ∧
    ("title" ∈ (ValidateAlbum currentYear ⟨[]⟩ a).Errors.map Prod.fst ↔
      ¬ (a.Title ≠ "" ∧ a.Title.utf8ByteSize ≤ 500)) ∧
    ("year" ∈ (ValidateAlbum currentYear ⟨[]⟩ a).Errors.map Prod.fst ↔
      ¬ (1888 ≤ a.Year ∧ a.Year ≤ currentYear)) ∧
    ("runtime" ∈ (ValidateAlbum currentYear ⟨[]⟩ a).Errors.map Prod.fst ↔
      ¬ (0 < a.Runtime)) ∧
    ("genres" ∈ (ValidateAlbum currentYear ⟨[]⟩ a).Errors.map Prod.fst ↔
      ¬ (1 ≤ a.Genres.length ∧ a.Genres.length ≤ 5 ∧ a.Genres.Nodup)) := by
  refine ⟨?_, ?_, ?_, ?_, ?_⟩
  · unfold ValidateAlbum
    simp only [check_errors_nil, bne_iff_ne, ne_eq, decide_eq_true_eq, unique_iff_nodup]
    constructor
    · rintro ⟨⟨⟨⟨⟨⟨⟨⟨⟨⟨⟨-, h1⟩, h2⟩, h3⟩, h4⟩, h5⟩, h6⟩, h7⟩, h8⟩, h9⟩, h10⟩, h11⟩
      exact ⟨h1, h2, h4, h5, h7, h9, h10, h11⟩
    · rintro ⟨h1, h2, h4, h5, h7, h9, h10, h11⟩
      have h8 : ¬ a.Genres = [] := by
        intro e
        rw [e] at h9
        simp at h9
      exact ⟨⟨⟨⟨⟨⟨⟨⟨⟨⟨⟨trivial, h1⟩, h2⟩, by omega⟩, h4⟩, h5⟩, by omega⟩, h7⟩, h8⟩, h9⟩, h10⟩, h11⟩
  · unfold ValidateAlbum
    simp only [check_keys_mem]
    simp +decide [bne_eq_false_iff_eq, decide_eq_false_iff_not, unique_iff_nodup]
    tauto
  · unfold ValidateAlbum
    simp only [check_keys_mem]
    simp +decide [bne_eq_false_iff_eq, decide_eq_false_iff_not, unique_iff_nodup]
    omega
  · unfold ValidateAlbum
    simp only [check_keys_mem]
    simp +decide [bne_eq_false_iff_eq, decide_eq_false_iff_not, unique_iff_nodup]
    omega
  · unfold ValidateAlbum
    simp only [check_keys_mem]
    simp +decide [bne_eq_false_iff_eq, decide_eq_false_iff_not, unique_iff_nodup]
    rw [unique_eq_false_iff]
    by_cases h : a.Genres.Nodup <;> simp [h]
    constructor
    · rintro (e | hl) h1
      · rw [e] at h1
        simp at h1
      · exact hl
    · intro himp
      rcases Nat.eq_zero_or_pos a.Genres.length with hz | hp
      · exact Or.inl (List.length_eq_zero.mp hz)
      · exact Or.inr (himp (by omega))

/-- A concrete valid row used by the witnesses. -/
def demoAlbum : Album :=
  { ID := 1, CreatedAt := 0, Title := "t", Year := 2000, Runtime := 60,
    Genres := ["rock"], Version := 1 }

theorem find_id_eq_none (db : List Album) (id : Int) (h : ∀ r ∈ db, r.ID ≠ id) :
    db.find? (fun r => decide (r.ID = id)) = none := by
  rw [List.find?_eq_none]
  intro x hx
  simp [h x hx]

theorem find_id_eq_some (db : List Album) (r : Album)
    (hnd : (db.map Album.ID).Nodup) (hr : r ∈ db) :
    db.find? (fun x => decide (x.ID = r.ID)) = some r := by
  induction db with
  | nil => cases hr
  | cons a l ih =>
      rw [List.map_cons, List.nodup_cons] at hnd
      rcases List.mem_cons.mp hr with rfl | hmem
      · simp [List.find?_cons]
      · have hne : a.ID ≠ r.ID := by
          intro e
          exact hnd.1 (e ▸ List.mem_map_of_mem Album.ID hmem)
        rw [List.find?_cons]
        have hd : decide (a.ID = r.ID) = false := by simp [hne]
        rw [hd]
        exact ih hnd.2 hmem

/-- C4: `Get(id)` is `ErrRecordNotFound` for `id < 1` with no query issued,
`ErrRecordNotFound` when no row carries the id, the fully populated stored row
when one does, and passes any other storage failure through unchanged. -/
theorem get_semantics (db : List Album) (id : Int) :
    (id < 1 → ∀ fault, AlbumModel.Get db id fault = ⟨false, .error ErrRecordNotFound⟩) ∧
    (1 ≤ id → (∀ r ∈ db, r.ID ≠ id) →
      AlbumModel.Get db id none = ⟨true, .error ErrRecordNotFound⟩) ∧
    ((db.map Album.ID).Nodup → ∀ r ∈ db, r.ID = id → 1 ≤ id →
      AlbumModel.Get db id none = ⟨true, .ok r⟩) ∧
    (1 ≤ id → ∀ c, AlbumModel.Get db id (some c) =
      ⟨true, .error (ModelErr.sqlError (.failure c))⟩) := by
  refine ⟨?_, ?_, ?_, ?_⟩
  · intro h fault
    simp [AlbumModel.Get, h]
  · intro h hnone
    have hni : ¬ id < 1 := by omega
    simp [AlbumModel.Get, hni, queryRowGet, find_id_eq_none db id hnone]
  · intro hnd r hr hid h1
    subst hid
    have hni : ¬ r.ID < 1 := by omega
    simp [AlbumModel.Get, hni, queryRowGet, find_id_eq_some db r hnd hr]
  · intro h c
    have hni : ¬ id < 1 := by omega
    simp [AlbumModel.Get, hni, queryRowGet]

theorem get_semantics_witness :
    AlbumModel.Get [demoAlbum] 1 none = ⟨true, .ok demoAlbum⟩ :=
  (get_semantics [demoAlbum] 1).2.2.1 (by decide) demoAlbum (by decide)
    (by decide) (by decide)

/-- C5: `Delete(id)` is `ErrRecordNotFound` for `id < 1` with no query issued
and when zero rows are affected; otherwise it removes the row unconditionally
(no version check), after which `Get` on the same id is `ErrRecordNotFound`;
any other storage failure passes through unchanged. -/
theorem delete_semantics (db : List Album) (id : Int) :
    (id < 1 → ∀ fault, AlbumModel.Delete db id fault = ⟨false, db, some ErrRecordNotFound⟩) ∧
    (1 ≤ id → (∀ r ∈ db, r.ID ≠ id) →
      AlbumModel.Delete db id none = ⟨true, db, some ErrRecordNotFound⟩) ∧
    (1 ≤ id → (∃ r ∈ db, r.ID = id) →
      (AlbumModel.Delete db id none).err = none ∧
      (AlbumModel.Delete db id none).db = db.filter (fun r => !decide (r.ID = id)) ∧
      AlbumModel.Get (AlbumModel.Delete db id none).db id none =
        ⟨true, .error ErrRecordNotFound⟩) ∧
    (1 ≤ id → ∀ c, AlbumModel.Delete db id (some c) =
      ⟨true, db, some (ModelErr.sqlError (.failure c))⟩) := by
  refine ⟨?_, ?_, ?_, ?_⟩
  · intro h fault
    simp [AlbumModel.Delete, h]
  · intro h hnone
    have hni : ¬ id < 1 := by omega
    have hcnt : db.countP (fun r => decide (r.ID = id)) = 0 := by
      rw [List.countP_eq_zero]
      intro x hx
      simp [hnone x hx]
    have hfil : db.filter (fun r => !decide (r.ID = id)) = db := by
      rw [List.filter_eq_self]
      intro x hx
      simp [hnone x hx]
    simp [AlbumModel.Delete, hni, execDelete, hcnt, hfil]
  · intro h hex
    have hni : ¬ id < 1 := by omega
    have hcnt : db.countP (fun r => decide (r.ID = id)) ≠ 0 := by
      rcases hex with ⟨r, hr, hid⟩
      have : 0 < db.countP (fun r => decide (r.ID = id)) := by
        rw [List.countP_pos_iff]
        exact ⟨r, hr, by simp [hid]⟩
      omega
    have hgone : ∀ x ∈ db.filter (fun r => !decide (r.ID = id)), x.ID ≠ id := by
      intro x hx
      have := (List.mem_filter.mp hx).2
      simpa using this
    refine ⟨?_, ?_, ?_⟩
    · simp [AlbumModel.Delete, hni, execDelete, hcnt]
    · simp [AlbumModel.Delete, hni, execDelete, hcnt]
    · have hred : (AlbumModel.Delete db id none).db =
          db.filter (fun r => !decide (r.ID = id)) := by
        simp [AlbumModel.Delete, hni, execDelete, hcnt]
      rw [hred]
      have hni2 : ¬ id < 1 := hni
      simp [AlbumModel.Get, hni2, queryRowGet,
        find_id_eq_none _ id hgone]
  · intro h c
    have hni : ¬ id < 1 := by omega
    simp [AlbumModel.Delete, hni, execDelete]

theorem delete_semantics_witness :
    (AlbumModel.Delete [demoAlbum] 1 none).err = none ∧
    AlbumModel.Get (AlbumModel.Delete [demoAlbum] 1 none).db 1 none =
      ⟨true, .error ErrRecordNotFound⟩ := by
  have h := (delete_semantics [demoAlbum] 1).2.2.1 (by decide)
    ⟨demoAlbum, by decide, by decide⟩
  exact ⟨h.1, h.2.2⟩

theorem any_updateMatches_iff (db : List Album) (a : Album) :
    db.any (updateMatches a) = true ↔ ∃ r ∈ db, r.ID = a.ID ∧ r.Version = a.Version := by
  rw [List.any_eq_true]
  constructor
  · rintro ⟨r, hr, hp⟩
    rw [updateMatches, decide_eq_true_eq] at hp
    exact ⟨r, hr, hp⟩
  · rintro ⟨r, hr, hp⟩
    exact ⟨r, hr, by rw [updateMatches, decide_eq_true_eq]; exact hp⟩

/-- C1: `Update` is a compare-and-swap — it succeeds iff some stored row has
the id and version of the caller; on success the stored version becomes exactly
`Version + 1`, the new value is written back into the record of the caller, and the
caller-supplied fields are stored; if no row matches, it fails with
`ErrEditConflict` and the store and record are unchanged; any other storage
failure passes through unchanged. -/
theorem update_cas (db : List Album) (a : Album) :
    ((AlbumModel.Update db a none).err = none ↔
      ∃ r ∈ db, r.ID = a.ID ∧ r.Version = a.Version) ∧
    ((∃ r ∈ db, r.ID = a.ID ∧ r.Version = a.Version) →
      (AlbumModel.Update db a none).album = { a with Version := a.Version + 1 } ∧
      ((db.map Album.ID).Nodup →
        ∀ r ∈ (AlbumModel.Update db a none).db, r.ID = a.ID →
          r.Version = a.Version + 1 ∧ r.Title = a.Title ∧ r.Year = a.Year ∧
          r.Runtime = a.Runtime ∧ r.Genres = a.Genres)) ∧
    ((¬ ∃ r ∈ db, r.ID = a.ID ∧ r.Version = a.Version) →
      AlbumModel.Update db a none = ⟨true, db, a, some ErrEditConflict⟩) ∧
    (∀ c, AlbumModel.Update db a (some c) =
      ⟨true, db, a, some (ModelErr.sqlError (.failure c))⟩) := by
  refine ⟨?_, ?_, ?_, ?_⟩
  · by_cases h : db.any (updateMatches a) = true
    · rw [← any_updateMatches_iff]
      simp [AlbumModel.Update, queryRowUpdate, h]
    · rw [← any_updateMatches_iff]
      simp [AlbumModel.Update, queryRowUpdate, h]
  · intro hex
    have h : db.any (updateMatches a) = true := (any_updateMatches_iff db a).mpr hex
    constructor
    · simp [AlbumModel.Update, queryRowUpdate, h]
    · intro hnd r hr hid
      have hdb : (AlbumModel.Update db a none).db = db.map (fun r =>
          if updateMatches a r then
            { r with Title := a.Title, Year := a.Year, Runtime := a.Runtime,
                     Genres := a.Genres, Version := r.Version + 1 }
          else r) := by
        simp [AlbumModel.Update, queryRowUpdate, h]
      rw [hdb] at hr
      rcases List.mem_map.mp hr with ⟨r0, hr0, hr0e⟩
      by_cases hm : updateMatches a r0 = true
      · rw [hm] at hr0e
        rw [updateMatches, decide_eq_true_eq] at hm
        subst hr0e
        simp [hm.2]
      · rw [Bool.not_eq_true] at hm
        rw [hm] at hr0e
        simp only [Bool.false_eq_true, if_false] at hr0e
        subst hr0e
        exfalso
        rcases hex with ⟨rm, hrm, hrmid, hrmv⟩
        have : r0 = rm := List.inj_on_of_nodup_map hnd hr0 hrm (by rw [hid, hrmid])
        subst this
        rw [updateMatches] at hm
        simp [hid, hrmid, hrmv] at hm
  · intro hno
    have h : ¬ db.any (updateMatches a) = true := by
      rw [any_updateMatches_iff]
      exact hno
    simp [AlbumModel.Update, queryRowUpdate, h]
  · intro c
    simp [AlbumModel.Update, queryRowUpdate]

theorem update_cas_witness :
    (AlbumModel.Update [demoAlbum] demoAlbum none).album =
      { demoAlbum with Version := demoAlbum.Version + 1 } :=
  ((update_cas [demoAlbum] demoAlbum).2.1 ⟨demoAlbum, by decide, rfl, rfl⟩).1

/-- C10: unlike `Get` and `Delete`, `Update` has no `id < 1` fast-path: for a
record whose id is below the valid range (so that no stored row can match,
stored ids being positive) it still issues the query and reports
`ErrEditConflict`, while `Get` and `Delete` report `ErrRecordNotFound` without
issuing a query. -/
theorem update_no_lowid_fastpath (db : List Album) (a : Album)
    (hpos : ∀ r ∈ db, 1 ≤ r.ID) (hid : a.ID < 1) :
    (AlbumModel.Update db a none).queried = true ∧
    (AlbumModel.Update db a none).err = some ErrEditConflict ∧
    (AlbumModel.Update db a none).err ≠ some ErrRecordNotFound ∧
    (AlbumModel.Get db a.ID none).queried = false ∧
    (AlbumModel.Get db a.ID none).res = .error ErrRecordNotFound ∧
    (AlbumModel.Delete db a.ID none).queried = false ∧
    (AlbumModel.Delete db a.ID none).err = some ErrRecordNotFound := by
  have h : ¬ db.any (updateMatches a) = true := by
    rw [any_updateMatches_iff]
    rintro ⟨r, hr, e, -⟩
    have := hpos r hr
    omega
  refine ⟨?_, ?_, ?_, ?_, ?_, ?_, ?_⟩
  · simp [AlbumModel.Update, queryRowUpdate, h]
  · simp [AlbumModel.Update, queryRowUpdate, h]
  · simp [AlbumModel.Update, queryRowUpdate, h, ErrEditConflict, ErrRecordNotFound]
  · simp [AlbumModel.Get, hid]
  · simp [AlbumModel.Get, hid]
  · simp [AlbumModel.Delete, hid]
  · simp [AlbumModel.Delete, hid]

theorem update_no_lowid_fastpath_witness :
    (AlbumModel.Update [demoAlbum] { demoAlbum with ID := 0 } none).err =
      some ErrEditConflict :=
  (update_no_lowid_fastpath [demoAlbum] { demoAlbum with ID := 0 }
    (by decide) (by decide)).2.1

/-- C9: a successful `Insert` writes exactly the store-generated `ID`,
`CreatedAt` and `Version = 1` back into the record of the caller and leaves the
caller-supplied `Title`, `Year`, `Runtime` and `Genres` unchanged. -/
theorem insert_writeback_frame (db : List Album) (nextId : Int) (now : Nat) (a : Album) :
    (AlbumModel.Insert db nextId now a none).err = none ∧
    (AlbumModel.Insert db nextId now a none).album.ID = nextId ∧
    (AlbumModel.Insert db nextId now a none).album.CreatedAt = now ∧
    (AlbumModel.Insert db nextId now a none).album.Version = 1 ∧
    (AlbumModel.Insert db nextId now a none).album.Title = a.Title ∧
    (AlbumModel.Insert db nextId now a none).album.Year = a.Year ∧
    (AlbumModel.Insert db nextId now a none).album.Runtime = a.Runtime ∧
    (AlbumModel.Insert db nextId now a none).album.Genres = a.Genres := by
  refine ⟨rfl, rfl, rfl, rfl, rfl, rfl, rfl, rfl⟩

theorem insert_writeback_frame_witness :
    (AlbumModel.Insert [] 7 42 demoAlbum none).album =
      { demoAlbum with ID := 7, CreatedAt := 42, Version := 1 } := by
  have h := insert_writeback_frame [] 7 42 demoAlbum
  decide

theorem sortColumn_of_mem (f : Filters) (h : f.SortKey ∈ f.SortSafelist) :
    f.sortColumn = some (stripLeadingDash f.SortKey) := by
  simp [Filters.sortColumn, List.contains, List.elem_iff, h]

theorem parseSortDir_sortDirection (f : Filters) :
    parseSortDir f.sortDirection = some (startsWithDash f.SortKey) := by
  unfold Filters.sortDirection
  by_cases h : startsWithDash f.SortKey <;> simp [h] <;> decide

/-- The unlimited filtered-and-sorted result set of the GetAll query. -/
def sortedFiltered (ts : String → String → Bool) (title : String) (genres : List String)
    (col : SortCol) (desc : Bool) (db : List Album) : List Album :=
  List.insertionSort (rowRel col desc) (db.filter (matchesRow ts title genres))

/-- The LIMIT/OFFSET window that `Filters` selects from a result list. -/
def windowOf (l : List Album) (f : Filters) : List Album :=
  (l.drop ((f.Page - 1) * f.PageSize).toNat).take f.PageSize.toNat

/-- Evaluation of `GetAll` on a healthy store under a safelisted sort key that
resolves to a column: the filtered set is sorted, windowed, and scanned, and
the metadata is computed from the scanned count — which is the matched total
when the window is non-empty and 0 when it is empty. -/
theorem getAll_eval (ts : String → String → Bool) (db : List Album) (title : String)
    (genres : List String) (f : Filters) (col : SortCol)
    (hsafe : f.SortKey ∈ f.SortSafelist)
    (hcol : parseSortCol (stripLeadingDash f.SortKey) = some col) :
    AlbumModel.GetAll ts db title genres f none =
      some ⟨windowOf (sortedFiltered ts title genres col (startsWithDash f.SortKey) db) f,
        calculateMetadata
          (Int.ofNat
            (if windowOf (sortedFiltered ts title genres col (startsWithDash f.SortKey) db) f = []
             then 0 else (db.filter (matchesRow ts title genres)).length))
          f.Page f.PageSize,
        none⟩ := by
  unfold AlbumModel.GetAll
  rw [sortColumn_of_mem f hsafe]
  simp only [hcol, parseSortDir_sortDirection]
  unfold selectAlbumsWindow windowOf sortedFiltered
  simp only [Filters.limit, Filters.offset]
  rw [scanLoop_window]

theorem sortedFiltered_sorted (ts : String → String → Bool) (title : String)
    (genres : List String) (col : SortCol) (desc : Bool) (db : List Album) :
    (sortedFiltered ts title genres col desc db).Pairwise (rowRel col desc) :=
  List.sorted_insertionSort _ _

theorem sortedFiltered_perm (ts : String → String → Bool) (title : String)
    (genres : List String) (col : SortCol) (desc : Bool) (db : List Album) :
    (sortedFiltered ts title genres col desc db).Perm
      (db.filter (matchesRow ts title genres)) :=
  List.perm_insertionSort _ _

theorem windowOf_sublist (l : List Album) (f : Filters) : (windowOf l f).Sublist l :=
  (List.take_sublist _ _).trans (List.drop_sublist _ _)

/-- C2 (amended): under a validated sort key, `GetAll` succeeds and returns
exactly the WHERE-matching rows (title text-search with empty-filter bypass,
genre-superset with empty-filter bypass), ordered by the resolved column and
direction with id ascending as tie-break, windowed with
`LIMIT = PageSize` and `OFFSET = (Page-1)*PageSize`; the metadata carries the
total matching-row count of the unlimited result set whenever the returned
window is non-empty, and is the zero `Metadata` when the window is empty. -/
theorem getAll_window_spec (ts : String → String → Bool) (db : List Album) (title : String)
    (genres : List String) (f : Filters) (col : SortCol)
    (hsafe : f.SortKey ∈ f.SortSafelist)
    (hcol : parseSortCol (stripLeadingDash f.SortKey) = some col) :
    ∃ g : GetAllResult,
      AlbumModel.GetAll ts db title genres f none = some g ∧
      g.err = none ∧
      g.albums = windowOf (sortedFiltered ts title genres col (startsWithDash f.SortKey) db) f ∧
      g.albums.Pairwise (rowRel col (startsWithDash f.SortKey)) ∧
      (∀ r ∈ g.albums, matchesRow ts title genres r = true ∧ r ∈ db) ∧
      (sortedFiltered ts title genres col (startsWithDash f.SortKey) db).Perm
        (db.filter (matchesRow ts title genres)) ∧
      (g.albums ≠ [] →
        g.metadata = calculateMetadata
          (Int.ofNat (db.filter (matchesRow ts title genres)).length) f.Page f.PageSize) ∧
      (g.albums = [] → g.metadata = Metadata.zero) := by
  refine ⟨_, getAll_eval ts db title genres f col hsafe hcol, rfl, rfl, ?_, ?_,
    sortedFiltered_perm ts title genres col (startsWithDash f.SortKey) db, ?_, ?_⟩
  · exact (sortedFiltered_sorted ts title genres col (startsWithDash f.SortKey) db).sublist
      (windowOf_sublist _ f)
  · intro r hr
    have h1 : r ∈ sortedFiltered ts title genres col (startsWithDash f.SortKey) db :=
      (windowOf_sublist _ f).subset hr
    have h2 : r ∈ db.filter (matchesRow ts title genres) :=
      (sortedFiltered_perm ts title genres col (startsWithDash f.SortKey) db).mem_iff.mp h1
    have h3 := List.mem_filter.mp h2
    exact ⟨h3.2, h3.1⟩
  · intro hne
    show calculateMetadata (Int.ofNat (if _ = [] then _ else _)) _ _ = _
    rw [if_neg hne]
  · intro he
    show calculateMetadata (Int.ofNat (if _ = [] then _ else _)) _ _ = _
    rw [if_pos he]
    simp [calculateMetadata]

theorem getAll_window_spec_witness :
    ∃ g : GetAllResult,
      AlbumModel.GetAll (fun _ _ => false) [demoAlbum] "" [] ⟨1, 20, "id", ["id"]⟩ none =
        some g ∧ g.err = none := by
  obtain ⟨g, h1, h2, -⟩ := getAll_window_spec (fun _ _ => false) [demoAlbum] "" []
    ⟨1, 20, "id", ["id"]⟩ .id (by decide) (by decide)
  exact ⟨g, h1, h2⟩

/-- C2, counterexample to the unamended claim: with one matching row, Page=2
and PageSize=10 the window is empty, and the call reports `TotalRecords = 0`
even though the unlimited matching set has 1 row — the Go loop only sees the
windowed count on rows that are actually returned. -/
theorem getAll_total_count_counterexample :
    AlbumModel.GetAll (fun _ _ => false) [demoAlbum] "" [] ⟨2, 10, "id", ["id"]⟩ none =
      some ⟨[], Metadata.zero, none⟩ ∧
    ([demoAlbum].filter (matchesRow (fun _ _ => false) "" [])).length = 1 ∧
    Metadata.zero.TotalRecords = 0 := by
  refine ⟨?_, ?_, ?_⟩ <;> decide

/-- C6: `GetAll` never reports `ErrRecordNotFound` — its only error outcome is
an unchanged storage error — and on an empty table with empty filters,
Page 1 / PageSize 20, it returns the empty sequence with zero-valued
metadata. -/
theorem getAll_empty_is_ok (ts : String → String → Bool) :
    (∀ db title genres f fault g,
      AlbumModel.GetAll ts db title genres f fault = some g →
      g.err ≠ some ErrRecordNotFound) ∧
    AlbumModel.GetAll ts [] "" [] ⟨1, 20, "id", ["id"]⟩ none =
      some ⟨[], Metadata.zero, none⟩ := by
  constructor
  · intro db title genres f fault g hg
    unfold AlbumModel.GetAll at hg
    split at hg
    · cases hg
    · split at hg
      · cases hg
        simp [ErrRecordNotFound]
      · split at hg
        · cases hg
          simp
        · cases hg
          simp [ErrRecordNotFound]
  · rfl

theorem getAll_empty_is_ok_witness :
    (⟨[], Metadata.zero, some (ModelErr.sqlError (.failure 5))⟩ : GetAllResult).err ≠
      some ErrRecordNotFound :=
  (getAll_empty_is_ok (fun _ _ => false)).1 [demoAlbum] "" [] ⟨1, 20, "id", ["id"]⟩
    (some 5) _ (by decide)

/-- A table of 25 rows with ids 1..25, all matching empty filters. -/
def album25 : List Album :=
  (List.range 25).map (fun i => { demoAlbum with ID := Int.ofNat (i + 1) })

/-- C7: the metadata computed from a total satisfies
`LastPage = ceil(TotalRecords / PageSize)` (characterised by the two ceiling
inequalities), with `CurrentPage`/`PageSize`/`TotalRecords` taken from the
same call; concretely, 25 matching rows with PageSize 10 and Page 3 yield 5
returned rows and `LastPage = 3`. -/
theorem metadata_lastPage_ceil :
    (∀ totalRecords page pageSize : Int, 0 ≤ totalRecords → 0 < pageSize →
      (calculateMetadata totalRecords page pageSize).TotalRecords = totalRecords ∧
      totalRecords ≤ (calculateMetadata totalRecords page pageSize).LastPage * pageSize ∧
      ((calculateMetadata totalRecords page pageSize).LastPage - 1) * pageSize < totalRecords ∧
      (totalRecords ≠ 0 →
        (calculateMetadata totalRecords page pageSize).CurrentPage = page ∧
        (calculateMetadata totalRecords page pageSize).PageSize = pageSize)) ∧
    (∃ g : GetAllResult,
      AlbumModel.GetAll (fun _ _ => false) album25 "" [] ⟨3, 10, "id", ["id"]⟩ none =
        some g ∧
      g.albums.length = 5 ∧ g.metadata.LastPage = 3 ∧ g.metadata.TotalRecords = 25) := by
  constructor
  · intro t page ps ht hps
    unfold calculateMetadata
    by_cases h0 : t = 0
    · subst h0
      rw [if_pos rfl]
      refine ⟨rfl, by simp [Metadata.zero], ?_, fun h => absurd rfl h⟩
      show (Metadata.zero.LastPage - 1) * ps < 0
      have he : (Metadata.zero.LastPage - 1) * ps = -ps := by
        simp [Metadata.zero]
      rw [he]
      omega
    · rw [if_neg h0]
      refine ⟨rfl, ?_, ?_, fun _ => ⟨rfl, rfl⟩⟩
      · have h1 := Int.ediv_add_emod (t + ps - 1) ps
        have h2 := Int.emod_nonneg (t + ps - 1) (by omega : ps ≠ 0)
        have h3 := Int.emod_lt_of_pos (t + ps - 1) hps
        show t ≤ (t + ps - 1) / ps * ps
        nlinarith [h1, h2, h3]
      · have h1 := Int.ediv_add_emod (t + ps - 1) ps
        have h2 := Int.emod_nonneg (t + ps - 1) (by omega : ps ≠ 0)
        have h3 := Int.emod_lt_of_pos (t + ps - 1) hps
        show ((t + ps - 1) / ps - 1) * ps < t
        nlinarith [h1, h2, h3]
  · refine ⟨_, rfl, ?_, ?_, ?_⟩ <;> decide

theorem metadata_lastPage_ceil_witness :
    (calculateMetadata 25 3 10).TotalRecords = 25 ∧
    25 ≤ (calculateMetadata 25 3 10).LastPage * 10 ∧
    ((calculateMetadata 25 3 10).LastPage - 1) * 10 < 25 :=
  ⟨(metadata_lastPage_ceil.1 25 3 10 (by decide) (by decide)).1,
   (metadata_lastPage_ceil.1 25 3 10 (by decide) (by decide)).2.1,
   (metadata_lastPage_ceil.1 25 3 10 (by decide) (by decide)).2.2.1⟩

/-- C8: whatever column fragment reaches the query text comes from the
allow-list (with the direction always an explicit `ASC`/`DESC`), and an
unrecognized sort key is rejected before the query string is constructed:
`sortColumn` refuses it and `GetAll` builds no query at all. -/
theorem sort_allowlist_safety :
    (∀ (f : Filters) (c : String), f.sortColumn = some c →
      (∃ s ∈ f.SortSafelist, c = stripLeadingDash s) ∧
      (f.sortDirection = "ASC" ∨ f.sortDirection = "DESC")) ∧
    (∀ f : Filters, f.SortKey ∉ f.SortSafelist →
      f.sortColumn = none ∧
      ∀ ts db title genres fault, AlbumModel.GetAll ts db title genres f fault = none) := by
  constructor
  · intro f c hc
    unfold Filters.sortColumn at hc
    split at hc
    · rename_i h
      cases hc
      refine ⟨⟨f.SortKey, ?_, rfl⟩, ?_⟩
      · rw [List.contains, List.elem_iff] at h
        exact h
      · unfold Filters.sortDirection
        by_cases hs : startsWithDash f.SortKey <;> simp [hs]
    · cases hc
  · intro f hnm
    have hc : f.sortColumn = none := by
      unfold Filters.sortColumn
      rw [if_neg]
      intro hct
      exact hnm (by rwa [List.contains, List.elem_iff] at hct)
    refine ⟨hc, ?_⟩
    intro ts db title genres fault
    unfold AlbumModel.GetAll
    rw [hc]

theorem sort_allowlist_safety_witness :
    Filters.sortColumn ⟨1, 20, "1; drop", ["id"]⟩ = none ∧
    AlbumModel.GetAll (fun _ _ => false) [demoAlbum] "" [] ⟨1, 20, "1; drop", ["id"]⟩
      none = none := by
  have h := sort_allowlist_safety.2 ⟨1, 20, "1; drop", ["id"]⟩ (by decide)
  exact ⟨h.1, h.2 (fun _ _ => false) [demoAlbum] "" [] none⟩

theorem validateAlbum_rules_witness :
    (ValidateAlbum 2026 ⟨[]⟩ demoAlbum).Errors = [] :=
  (validateAlbum_rules 2026 demoAlbum).1.mpr (by decide)
